import Mathlib

/-!
Shallow embedding of `Telegram/SourceFiles/dialogs/ui/dialogs_stories_list.cpp`
(the stories strip widget `Dialogs::Stories::List`).

Modelling conventions:
* C++ `int` is modelled as `ℤ`; C++ truncating integer division is `Int.tdiv`.
* C++ `float64` is modelled as `ℚ` (all the arithmetic the claims are about is
  exact: additions, multiplications and divisions of small integers/ratios).
* Qt collaborator values (animation clock readings, pointer positions, the
  right-to-left flag, the platform drag distance) are explicit parameters or
  state fields.
* `Expects(...)` contract checks make the operation return `none`.
* Emitted rpl event streams are modelled as a returned `List Event`.
-/

namespace Stories

/-- Style constants of the compact ("small") presentation
(`style::DialogsStories` fields used by the code). -/
structure SmallStyle where
  left : ℤ
  photoLeft : ℤ
  photo : ℤ
  shift : ℤ
  photoTop : ℤ
deriving DecidableEq

/-- Style constants of the expanded ("full") presentation. -/
structure FullStyle where
  left : ℤ
  photoLeft : ℤ
  photo : ℤ
  height : ℤ
deriving DecidableEq

/-- `style::DialogsStoriesList`: the two presentations plus the
`fullClickable` tunable. -/
structure ListStyle where
  small : SmallStyle
  full : FullStyle
  fullClickable : Bool
deriving DecidableEq

/-- One element of a content snapshot (`Dialogs::Stories::Element`).
The thumbnail is a non-owning handle, modelled as an opaque number. -/
structure Element where
  id : ℕ
  thumbnail : ℕ
  name : String
  count : ℕ
  unreadCount : ℕ
  skipSmall : Bool
deriving DecidableEq

/-- A content snapshot (`Dialogs::Stories::Content`). -/
structure Content where
  elements : List Element
deriving DecidableEq

/-- A stored item (`List::Item`): the element plus cached state.
`nameCache` models the rendered-name `QImage` (`none` = null image);
`subscribed` records whether the thumbnail update callback was installed. -/
structure Item where
  element : Element
  subscribed : Bool
  nameCache : Option ℕ
deriving DecidableEq

/-- The discrete widget state (`List::State`). -/
inductive State where
  | Small
  | Changing
  | Full
deriving DecidableEq

/-- Events fired on the widget's rpl streams. -/
inductive Event where
  | click (id : ℕ)
  | toggleExpanded (b : Bool)
  | loadMore
  | showMenu (id : ℕ)
  | entered
deriving DecidableEq

/-- The mutable state of `List` (the widget's data members, plus the widget
geometry that Qt stores for it and the global right-to-left flag). -/
structure ListState where
  st : ListStyle
  content : Content
  items : List Item
  empty : Bool
  scrollLeft : ℤ
  scrollLeftMax : ℤ
  lastRatio : ℚ
  expanded : Bool
  state : State
  selected : ℤ
  pressed : ℤ
  dragging : Bool
  mouseDownPosition : Option (ℤ × ℤ)
  lastMousePosition : ℤ × ℤ
  startDraggingLeft : ℤ
  lastExpandedHeight : ℤ
  expandIgnored : Bool
  xpos : ℤ
  ypos : ℤ
  width : ℤ
  height : ℤ
  positionSmall : ℤ × ℤ
  alignRight : Bool
  alignCenter : Bool
  geometryFull : ℤ × ℤ × ℤ × ℤ
  changingGeometryFrom : ℤ × ℤ × ℤ × ℤ
  rtl : Bool
deriving DecidableEq

/-- The per-frame layout value (`List::Layout`). `float64` fields are `ℚ`,
`int` fields are `ℤ`; `geometryShift` is the `QPointF`. -/
structure Layout where
  itemsCount : ℤ
  geometryShift : ℚ × ℚ
  expandedRatio : ℚ
  ratio : ℚ
  thumbnailLeft : ℚ
  photoLeft : ℚ
  left : ℚ
  single : ℚ
  smallSkip : ℤ
  leftFull : ℤ
  leftSmall : ℤ
  singleFull : ℤ
  singleSmall : ℤ
  startIndexSmall : ℤ
  endIndexSmall : ℤ
  startIndexFull : ℤ
  endIndexFull : ℤ
deriving DecidableEq

/-- `kSmallThumbsShown`. -/
def kSmallThumbsShown : ℤ := 3
/-- `kPreloadPages`. -/
def kPreloadPages : ℤ := 2
/-- `kExpandAfterRatio`. -/
def kExpandAfterRatio : ℚ := 72 / 100
/-- `kCollapseAfterRatio`. -/
def kCollapseAfterRatio : ℚ := 68 / 100
/-- `kFrictionRatio`. -/
def kFrictionRatio : ℚ := 15 / 100

/-- `_data.items[0].element.skipSmall`; only read under `itemsCount > 1`,
so the `[]` default is never observed. -/
def headSkipSmall : List Item → Bool
  | [] => false
  | i :: _ => i.element.skipSmall

/-- `List::computeLayout(float64 expanded)` (the const overload, lines
198-268): the pure layout function of the current state and the expand/
collapse animation value `expanded`.  (The source's local `smallWidth`,
line 228, is never read and is omitted.) -/
def computeLayout (s : ListState) (expanded : ℚ) : Layout :=
  let st := s.st.small
  let full := s.st.full
  let expandedRatio := s.lastRatio
  let collapsedRatio := expandedRatio * kFrictionRatio
  let ratio := expandedRatio * expanded + collapsedRatio * (1 - expanded)
  let lerp := fun (a b : ℚ) => a + (b - a) * ratio
  let widthFull := s.width
  let itemsCount : ℤ := s.items.length
  let leftFullMin := full.left
  let singleFullMin := full.photoLeft * 2 + full.photo
  let totalFull := leftFullMin + singleFullMin * itemsCount
  let skipSide : ℤ :=
    if totalFull < widthFull then Int.tdiv (widthFull - totalFull) (itemsCount + 1) else 0
  let skipBetween : ℤ :=
    if totalFull < widthFull ∧ itemsCount > 1 then
      Int.tdiv (widthFull - totalFull - 2 * skipSide) (itemsCount - 1)
    else skipSide
  let singleFull := singleFullMin + skipBetween
  let smallSkip : ℤ := if itemsCount > 1 ∧ headSkipSmall s.items then 1 else 0
  let smallCount := min kSmallThumbsShown (itemsCount - smallSkip)
  let leftSmall := st.left - (if smallSkip ≠ 0 then st.shift else 0)
  let leftFull := full.left - s.scrollLeft + skipSide
  let startIndexFull := Int.tdiv (max (-leftFull) 0) singleFull
  let cellLeftFull := leftFull + startIndexFull * singleFull
  let endIndexFull := min (Int.tdiv (s.width - leftFull + singleFull - 1) singleFull) itemsCount
  let startIndexSmall := min startIndexFull smallSkip
  let endIndexSmall := smallSkip + smallCount
  let cellLeftSmall := leftSmall + startIndexSmall * st.shift
  let thumbnailLeftFull := cellLeftFull + full.photoLeft
  let thumbnailLeftSmall := cellLeftSmall + st.photoLeft
  let thumbnailLeft := lerp (thumbnailLeftSmall : ℚ) (thumbnailLeftFull : ℚ)
  let photoLeft := lerp (st.photoLeft : ℚ) (full.photoLeft : ℚ)
  { itemsCount := itemsCount
    geometryShift :=
      ((if s.state = State.Changing then
          lerp (s.changingGeometryFrom.1 : ℚ) (s.geometryFull.1 : ℚ) - (s.xpos : ℚ)
        else 0),
       (if s.state = State.Changing then
          lerp (s.changingGeometryFrom.2.1 : ℚ) (s.geometryFull.2.1 : ℚ) - (s.ypos : ℚ)
        else 0))
    expandedRatio := expandedRatio
    ratio := ratio
    thumbnailLeft := thumbnailLeft
    photoLeft := photoLeft
    left := thumbnailLeft - photoLeft
    single := lerp (st.shift : ℚ) (singleFull : ℚ)
    smallSkip := smallSkip
    leftFull := leftFull
    leftSmall := leftSmall
    singleFull := singleFull
    singleSmall := st.shift
    startIndexSmall := startIndexSmall
    endIndexSmall := endIndexSmall
    startIndexFull := startIndexFull
    endIndexFull := endIndexFull }

/-- `std::clamp(v, lo, hi)` for `lo ≤ hi`. -/
def clampI (v lo hi : ℤ) : ℤ := max lo (min v hi)

/-- C++ `float64 → int` conversion (truncation toward zero). -/
def truncQ (q : ℚ) : ℤ := Int.tdiv q.num (q.den : ℤ)

/-- The ratio computed by `List::updateExpanding` (lines 175-177):
`!expandingHeight ? 0. : float64(expandingHeight) / expandedHeight`. -/
def expandingRatio (expandingHeight expandedHeight : ℤ) : ℚ :=
  if expandingHeight = 0 then 0 else (expandingHeight : ℚ) / (expandedHeight : ℚ)

/-- `List::requestExpanded(bool expanded)` (lines 150-162). The
expand/collapse animation start is a clock-collaborator side effect with no
modelled state; `_toggleExpandedRequests.fire_copy(_expanded)` runs
unconditionally after the conditional flag update. -/
def requestExpanded (s : ListState) (expanded : Bool) : ListState × List Event :=
  let s := if s.expanded ≠ expanded then { s with expanded := expanded } else s
  (s, [Event.toggleExpanded s.expanded])

/-- `List::updateExpanding(int expandingHeight, int expandedHeight)`
(lines 172-189). `Expects(!expandingHeight || expandedHeight > 0)` is
modelled by returning `none` on violation. -/
def updateExpanding (s : ListState) (expandingHeight expandedHeight : ℤ) :
    Option (ListState × List Event) :=
  if expandingHeight ≠ 0 ∧ ¬ 0 < expandedHeight then none
  else
    let ratio := expandingRatio expandingHeight expandedHeight
    if s.lastRatio = ratio then some (s, [])
    else
      let expanding := ratio > s.lastRatio
      let s' := { s with lastRatio := ratio }
      let change :=
        if s'.expanded then ¬expanding ∧ ratio < kCollapseAfterRatio
        else expanding ∧ ratio > kExpandAfterRatio
      if change then some (requestExpanded s' (!s'.expanded)) else some (s', [])

/-- `List::checkLoadMore` (lines 610-614): level-triggered load-more signal. -/
def checkLoadMore (s : ListState) : List Event :=
  if s.scrollLeftMax - s.scrollLeft < s.width * kPreloadPages then [Event.loadMore] else []

/-- `List::updateScrollMax` (lines 120-128). The `update()` repaint request
has no modelled effect. -/
def updateScrollMax (s : ListState) : ListState × List Event :=
  let singleFull := s.st.full.photoLeft * 2 + s.st.full.photo
  let widthFull := s.st.full.left + (s.items.length : ℤ) * singleFull
  let m := max (widthFull - s.width) 0
  let s := { s with scrollLeftMax := m, scrollLeft := clampI s.scrollLeft 0 m }
  (s, checkLoadMore s)

/-- The per-element merge step of `List::showContent` (lines 93-105): the
existing item is moved into the new list; the subscription flag is invalidated
when the thumbnail handle changed, the name cache when the name changed;
counts are always updated.  `element.id` and `element.skipSmall` keep their
stored values. -/
def reconcileItem (item : Item) (element : Element) : Item :=
  let item :=
    if item.element.thumbnail ≠ element.thumbnail then
      { item with element := { item.element with thumbnail := element.thumbnail },
                  subscribed := false }
    else item
  let item :=
    if item.element.name ≠ element.name then
      { item with element := { item.element with name := element.name },
                  nameCache := none }
    else item
  { item with element := { item.element with count := element.count, unreadCount := element.unreadCount } }

/-- `List::countSmallGeometry` (lines 716-736), as `(x, y, w, h)`. -/
def countSmallGeometry (s : ListState) : ℤ × ℤ × ℤ × ℤ :=
  let st := s.st.small
  let layout := computeLayout s 0
  let count := layout.endIndexSmall - max layout.startIndexSmall layout.smallSkip
  let w := st.left + st.photoLeft + st.photo + (count - 1) * st.shift + st.photoLeft + st.left
  let left :=
    if s.alignRight then s.positionSmall.1 - w
    else if s.alignCenter then s.positionSmall.1 - Int.tdiv w 2
    else s.positionSmall.1
  (left, s.positionSmall.2, w, st.photoTop + st.photo + st.photoTop)

/-- `QWidget::setGeometry`: Qt stores the new widget geometry.  (The resize
event it triggers re-runs `updateScrollMax`; every modelled caller runs
`updateScrollMax`, which is idempotent, immediately afterwards anyway.) -/
def setGeometry (s : ListState) (r : ℤ × ℤ × ℤ × ℤ) : ListState :=
  { s with xpos := r.1, ypos := r.2.1, width := r.2.2.1, height := r.2.2.2 }

/-- `QRect::united` on `(x, y, w, h)` rectangles. -/
def unitedRect (a b : ℤ × ℤ × ℤ × ℤ) : ℤ × ℤ × ℤ × ℤ :=
  let x := min a.1 b.1
  let y := min a.2.1 b.2.1
  (x, y, max (a.1 + a.2.2.1) (b.1 + b.2.2.1) - x, max (a.2.1 + a.2.2.2) (b.2.1 + b.2.2.2) - y)

/-- `List::updateGeometry` (lines 704-714). -/
def updateGeometry (s : ListState) : ListState :=
  match s.state with
  | State.Small => setGeometry s (countSmallGeometry s)
  | State.Changing =>
      let cg := countSmallGeometry s
      setGeometry { s with changingGeometryFrom := cg } (unitedRect s.geometryFull cg)
  | State.Full => setGeometry s s.geometryFull

/-- `List::showContent(Content &&content)` (lines 75-118).  Note that the
empty-snapshot branch clears `_data` and sets `_empty` but leaves `_content`
unchanged and returns before `updateScrollMax`.  Duplicate ids in a snapshot
would re-find the same (moved-from) stored item; the moved-from residue is
not modelled (no claim involves duplicate ids). -/
def showContent (s : ListState) (content : Content) : ListState × List Event :=
  if s.content = content then (s, [])
  else if content.elements = [] then ({ s with items := [], empty := true }, [])
  else
    let wasCount : ℤ := s.items.length
    let olds := s.items
    let newItems := content.elements.map (fun e =>
      match olds.find? (fun item => item.element.id == e.id) with
      | some i => reconcileItem i e
      | none => { element := e, subscribed := false, nameCache := none })
    let s := { s with content := content, items := newItems }
    let s := if (newItems.length : ℤ) ≠ wasCount then updateGeometry s else s
    let r := updateScrollMax s
    let s := if wasCount = 0 then { r.1 with empty := false } else r.1
    (s, r.2)

/-- The non-const `List::computeLayout()` (lines 191-196): first re-runs
`updateExpanding` from the catch-up-multiplied expanded height, then computes
the layout at the expand/collapse animation's current value.  `catchUp`
models `_expandCatchUpAnimation.value(1.)` and `expAnim` models
`_expandedAnimation.value(_expanded ? 1. : 0.)`. -/
def computeLayoutUpdating (s : ListState) (catchUp expAnim : ℚ) :
    Option (ListState × Layout × List Event) :=
  match updateExpanding s (truncQ ((s.lastExpandedHeight : ℚ) * catchUp)) s.st.full.height with
  | none => none
  | some (s, evs) => some (s, computeLayout s expAnim, evs)

/-- The candidate slot index of `List::updateSelected` (lines 824-827):
`(x < secondLeft) ? 0 : floor(max(x - firstRight, 0) / single) + 1`. -/
def hitCandidate (secondLeft firstRight single : ℚ) (x : ℚ) : ℤ :=
  if x < secondLeft then 0 else Int.floor (max (x - firstRight) 0 / single) + 1

/-- The presentation-relative resolved index of `List::updateSelected`
(lines 828-837). -/
def hitIndex (fullClickable : Bool) (startIndex endIndex : ℤ)
    (firstRight secondLeft lastRightAdd single : ℚ) (x : ℚ) : ℤ :=
  let infiniteIndex := hitCandidate secondLeft firstRight single x
  if endIndex = startIndex then -1
  else if infiniteIndex = endIndex - startIndex
      ∧ x < firstRight + ((endIndex - startIndex - 1 : ℤ) : ℚ) * single + lastRightAdd then
    infiniteIndex - 1
  else if startIndex + infiniteIndex ≥ endIndex then
    (if fullClickable then endIndex - 1 else -1)
  else infiniteIndex

/-- The absolute selected index of `List::updateSelected` (lines 838-841).
(`_selected` stays `-1` when the index is out of the item range.) -/
def hitSelected (itemsCount startIndex index : ℤ) : ℤ :=
  if index < 0 ∨ startIndex + index ≥ itemsCount then -1 else startIndex + index

/-- `List::updateSelected` (lines 792-849).  The pointer is mapped from
global to widget coordinates through the widget position; the cursor-shape
update is a UI side effect with no modelled state. -/
def updateSelected (s : ListState) (catchUp expAnim : ℚ) :
    Option (ListState × List Event) :=
  if s.pressed ≥ 0 then some (s, [])
  else
    match computeLayoutUpdating s catchUp expAnim with
    | none => none
    | some (s, layout, evs) =>
      let st := s.st.small
      let px := s.lastMousePosition.1 - s.xpos
      let firstRightFull := layout.leftFull + (layout.startIndexFull + 1) * layout.singleFull
      let secondLeftFull := firstRightFull
      let firstRightSmall := layout.leftSmall + st.photoLeft + st.photo
      let secondLeftSmall :=
        if layout.smallSkip ≠ 0 then layout.leftSmall + st.photoLeft + st.shift
        else firstRightSmall
      let lastRightAddFull : ℤ := 0
      let lastRightAddSmall := st.photoLeft
      let lerp := fun (a b : ℚ) => a + (b - a) * layout.ratio
      let firstRight := lerp (firstRightSmall : ℚ) (firstRightFull : ℚ)
      let secondLeft := lerp (secondLeftSmall : ℚ) (secondLeftFull : ℚ)
      let lastRightAdd := lerp (lastRightAddSmall : ℚ) (lastRightAddFull : ℚ)
      let activateFull := layout.ratio ≥ 1 / 2
      let startIndex := if activateFull then layout.startIndexFull else layout.startIndexSmall
      let endIndex := if activateFull then layout.endIndexFull else layout.endIndexSmall
      let index := hitIndex s.st.fullClickable startIndex endIndex
        firstRight secondLeft lastRightAdd layout.single (px : ℚ)
      let selected := hitSelected layout.itemsCount startIndex index
      some ({ s with selected := selected }, evs)

/-- The horizontal wheel delta (lines 544-547):
`(RightToLeft ? -1 : 1) * (pixelDelta.x ? pixelDelta.x : angleDelta.x)`. -/
def wheelDelta (s : ListState) (angleDeltaX pixelDeltaX : ℤ) : ℤ :=
  (if s.rtl then -1 else 1) * (if pixelDeltaX ≠ 0 then pixelDeltaX else angleDeltaX)

/-- `List::wheelEvent` (lines 538-563).  Only the horizontal branch of the
`delta` expression is reachable: a non-horizontal wheel is ignored first. -/
def wheelEvent (s : ListState) (angleDeltaX pixelDeltaX : ℤ) (catchUp expAnim : ℚ) :
    Option (ListState × List Event) :=
  if angleDeltaX = 0 ∨ s.state = State.Small then some (s, [])
  else
    let delta := wheelDelta s angleDeltaX pixelDeltaX
    let now := s.scrollLeft
    let used := now - delta
    let next := clampI used 0 s.scrollLeftMax
    if next ≠ now then
      let r1 := requestExpanded s true
      let s2 := { r1.1 with scrollLeft := next }
      match updateSelected s2 catchUp expAnim with
      | none => none
      | some (s3, evs2) => some (s3, r1.2 ++ evs2 ++ checkLoadMore s3)
    else some (s, [])

/-- `List::mousePressEvent` (lines 565-578), for the left button (any other
button returns at once).  In `State::Small` the handler requests expansion
and then falls through to record the press. -/
def mousePressEvent (s : ListState) (pos : ℤ × ℤ) (catchUp expAnim : ℚ) :
    Option (ListState × List Event) :=
  if s.state ≠ State.Small ∧ s.state ≠ State.Full then some (s, [])
  else
    let r1 := if s.state = State.Small then requestExpanded s true else (s, [])
    let s2 := { r1.1 with lastMousePosition := pos }
    match updateSelected s2 catchUp expAnim with
    | none => none
    | some (s3, evs2) =>
      some ({ s3 with mouseDownPosition := some pos, pressed := s3.selected }, r1.2 ++ evs2)

/-- `List::checkDragging` (lines 594-608).  Dereferencing
`_mouseDownPosition` presumes it is set while dragging; the unreachable
`none` case is a no-op. -/
def checkDragging (s : ListState) : ListState × List Event :=
  if s.dragging then
    match s.mouseDownPosition with
    | some down =>
      let sign : ℤ := if s.rtl then -1 else 1
      let newLeft := clampI (sign * (down.1 - s.lastMousePosition.1) + s.startDraggingLeft)
        0 s.scrollLeftMax
      if newLeft ≠ s.scrollLeft then
        let s := { s with scrollLeft := newLeft }
        (s, checkLoadMore s)
      else (s, [])
    | none => (s, [])
  else (s, [])

/-- The drag-start check of `List::mouseMoveEvent` (lines 584-590): once the
pointer moved at least the platform drag distance from the press position
(Manhattan length) with the widget in `State::Full`, dragging begins,
capturing the scroll offset at drag start. -/
def maybeStartDrag (s1 : ListState) (pos : ℤ × ℤ) (dragDistance : ℤ) : ListState :=
  match s1.mouseDownPosition with
  | none => s1
  | some down =>
    if ¬s1.dragging ∧ s1.state = State.Full
        ∧ |pos.1 - down.1| + |pos.2 - down.2| ≥ dragDistance then
      { s1 with dragging := true, startDraggingLeft := s1.scrollLeft }
    else s1

/-- `List::mouseMoveEvent` (lines 580-592). `dragDistance` models
`QApplication::startDragDistance()`. -/
def mouseMoveEvent (s : ListState) (pos : ℤ × ℤ) (dragDistance : ℤ) (catchUp expAnim : ℚ) :
    Option (ListState × List Event) :=
  let s := { s with lastMousePosition := pos }
  match updateSelected s catchUp expAnim with
  | none => none
  | some (s1, evs1) =>
    let s2 := maybeStartDrag s1 pos dragDistance
    let r2 := checkDragging s2
    some (r2.1, evs1 ++ r2.2)

/-- `List::finishDragging` (lines 782-790); the `Bool` is the return value. -/
def finishDragging (s : ListState) (catchUp expAnim : ℚ) :
    Option (Bool × ListState × List Event) :=
  if ¬s.dragging then some (false, s, [])
  else
    let r1 := checkDragging s
    let s2 := { r1.1 with dragging := false }
    match updateSelected s2 catchUp expAnim with
    | none => none
    | some (s3, evs2) => some (true, s3, r1.2 ++ evs2)

/-- A placeholder item, only used as the out-of-range default of `itemIdAt`. -/
def defaultItem : Item :=
  { element := { id := 0, thumbnail := 0, name := "", count := 0, unreadCount := 0, skipSmall := false }, subscribed := false, nameCache := none }

/-- Id of the stored item at index `i` (in-range by the caller's guard). -/
def itemIdAt (s : ListState) (i : ℤ) : ℕ :=
  (s.items.getD i.toNat defaultItem).element.id

/-- `List::mouseReleaseEvent` (lines 616-634).  The `gsl::finally` guard
clears `_mouseDownPosition` on every exit path.  The C++ guard
`_selected < _data.items.size()` compares a signed `_selected` against an
unsigned size, so a negative `_selected` fails it. -/
def mouseReleaseEvent (s : ListState) (pos : ℤ × ℤ) (catchUp expAnim : ℚ) :
    Option (ListState × List Event) :=
  let s := { s with lastMousePosition := pos }
  let pressed := s.pressed
  let s := { s with pressed := -1 }
  let clear := fun (t : ListState) => { t with mouseDownPosition := none }
  match finishDragging s catchUp expAnim with
  | none => none
  | some (finished, s1, evs1) =>
    if finished then some (clear s1, evs1)
    else
      match updateSelected s1 catchUp expAnim with
      | none => none
      | some (s2, evs2) =>
        if s2.selected = pressed then
          if ¬s2.expanded then
            let r3 := requestExpanded s2 true
            some (clear r3.1, evs1 ++ evs2 ++ r3.2)
          else if 0 ≤ s2.selected ∧ s2.selected < (s2.items.length : ℤ) then
            some (clear s2, evs1 ++ evs2 ++ [Event.click (itemIdAt s2 s2.selected)])
          else some (clear s2, evs1 ++ evs2)
        else some (clear s2, evs1 ++ evs2)

/-- `List::resizeEvent` (lines 168-170): the width is already updated by Qt
when the handler runs `updateScrollMax`. -/
def resizeEvent (s : ListState) (w h : ℤ) : ListState × List Event :=
  updateScrollMax { s with width := w, height := h }

/-- An externally triggered interaction, resize or content update. -/
inductive Op where
  | wheel (angleDeltaX pixelDeltaX : ℤ) (catchUp expAnim : ℚ)
  | press (pos : ℤ × ℤ) (catchUp expAnim : ℚ)
  | move (pos : ℤ × ℤ) (dragDistance : ℤ) (catchUp expAnim : ℚ)
  | release (pos : ℤ × ℤ) (catchUp expAnim : ℚ)
  | resize (w h : ℤ)
  | content (c : Content)

/-- Dispatch one event-handler invocation. -/
def step (s : ListState) : Op → Option (ListState × List Event)
  | Op.wheel ax px cu ea => wheelEvent s ax px cu ea
  | Op.press pos cu ea => mousePressEvent s pos cu ea
  | Op.move pos dd cu ea => mouseMoveEvent s pos dd cu ea
  | Op.release pos cu ea => mouseReleaseEvent s pos cu ea
  | Op.resize w h => some (resizeEvent s w h)
  | Op.content c => some (showContent s c)

/-- Run a sequence of handler invocations, keeping the final state. -/
def runOps (s : ListState) : List Op → Option ListState
  | [] => some s
  | op :: rest =>
    match step s op with
    | none => none
    | some (s', _) => runOps s' rest

/-- Feed a sequence of `(expandingHeight, expandedHeight)` samples to
`updateExpanding`, collecting each call's emitted events. -/
def runUpdates (s : ListState) : List (ℤ × ℤ) → Option (ListState × List (List Event))
  | [] => some (s, [])
  | (h, hh) :: rest =>
    match updateExpanding s h hh with
    | none => none
    | some (s', evs) =>
      match runUpdates s' rest with
      | none => none
      | some (s'', evss) => some (s'', evs :: evss)

/-- The full-row content width used by `updateScrollMax`:
`full.left + items.size() * (full.photoLeft * 2 + full.photo)`. -/
def fullWidth (s : ListState) : ℤ :=
  s.st.full.left + (s.items.length : ℤ) * (s.st.full.photoLeft * 2 + s.st.full.photo)

/-- Modelled from the spec: the compact-presentation ("pure compact") values
of the interpolated positional fields `(thumbnailLeft, photoLeft, left,
single)`, read off the ratio-independent window fields of the layout. -/
def pureCompactFields (s : ListState) : ℚ × ℚ × ℚ × ℚ :=
  let st := s.st.small
  let layout := computeLayout s 0
  let cellLeftSmall := layout.leftSmall + layout.startIndexSmall * layout.singleSmall
  (((cellLeftSmall + st.photoLeft : ℤ) : ℚ), ((st.photoLeft : ℤ) : ℚ),
    ((cellLeftSmall : ℤ) : ℚ), ((st.shift : ℤ) : ℚ))

/-- Modelled from the spec: the full-presentation ("pure full") values of the
interpolated positional fields `(thumbnailLeft, photoLeft, left, single)`. -/
def pureFullFields (s : ListState) : ℚ × ℚ × ℚ × ℚ :=
  let full := s.st.full
  let layout := computeLayout s 1
  let cellLeftFull := layout.leftFull + layout.startIndexFull * layout.singleFull
  (((cellLeftFull + full.photoLeft : ℤ) : ℚ), ((full.photoLeft : ℤ) : ℚ),
    ((cellLeftFull : ℤ) : ℚ), ((layout.singleFull : ℤ) : ℚ))

/-- A sample style (arbitrary positive metrics). -/
def baseStyle : ListStyle :=
  { small := { left := 10, photoLeft := 5, photo := 20, shift := 12, photoTop := 2 },
    full := { left := 0, photoLeft := 5, photo := 20, height := 30 },
    fullClickable := false }

/-- A freshly constructed widget: compact, no content, nothing pressed. -/
def baseState : ListState :=
  { st := baseStyle, content := { elements := [] }, items := [], empty := true,
    scrollLeft := 0, scrollLeftMax := 0, lastRatio := 0, expanded := false,
    state := State.Small, selected := -1, pressed := -1, dragging := false,
    mouseDownPosition := none, lastMousePosition := (0, 0), startDraggingLeft := 0,
    lastExpandedHeight := 0, expandIgnored := false,
    xpos := 0, ypos := 0, width := 100, height := 0,
    positionSmall := (0, 0), alignRight := false, alignCenter := false,
    geometryFull := (0, 0, 100, 30), changingGeometryFrom := (0, 0, 0, 0), rtl := false }

/-- A sample element. -/
def elemA : Element :=
  { id := 1, thumbnail := 10, name := "a", count := 1, unreadCount := 0, skipSmall := false }

/-- A sample element. -/
def elemB : Element :=
  { id := 2, thumbnail := 20, name := "b", count := 2, unreadCount := 1, skipSmall := false }

/-- A sample element. -/
def elemC : Element :=
  { id := 3, thumbnail := 30, name := "c", count := 3, unreadCount := 0, skipSmall := false }

/-- A sample cached item for `elemA` (subscribed, name image cached). -/
def itemA : Item := { element := elemA, subscribed := true, nameCache := some 11 }

/-- A sample cached item for `elemB`. -/
def itemB : Item := { element := elemB, subscribed := true, nameCache := some 22 }

/-- A sample cached item for `elemC`. -/
def itemC : Item := { element := elemC, subscribed := false, nameCache := some 33 }

/-- The empty snapshot. -/
def emptyContent : Content := { elements := [] }

/-- A one-element snapshot. -/
def snapC4 : Content := { elements := [elemA] }

/-- Sample state with a nonzero stored expansion ratio (for C2). -/
def stateC2 : ListState := { baseState with lastRatio := 1, items := [itemA, itemB] }

/-- Store holding `[A, B, C]` with live caches (for C5). -/
def stateC5 : ListState := { baseState with items := [itemA, itemB, itemC], empty := false }

/-- A style whose full row is 10 px per item with no margins. -/
def styleC6 : ListStyle :=
  { small := { left := 0, photoLeft := 0, photo := 5, shift := 3, photoTop := 0 },
    full := { left := 0, photoLeft := 0, photo := 10, height := 10 },
    fullClickable := false }

/-- An expanded widget, 30 px wide (for C6/C10). -/
def stateC6 : ListState := { baseState with
  st := styleC6, state := State.Full, width := 30, geometryFull := (0, 0, 30, 10) }

/-- The n-th sample element of the ten-element snapshot. -/
def mkElem (n : ℕ) : Element :=
  { id := n + 1, thumbnail := n, name := "", count := 0, unreadCount := 0, skipSmall := false }

/-- A ten-element snapshot. -/
def snap10 : Content := { elements := (List.range 10).map mkElem }

/-- Snapshot with ten items, a scroll, then the empty snapshot (for C6). -/
def opsC6 : List Op := [Op.content snap10, Op.wheel (-50) 0 1 0, Op.content emptyContent]

/-- The C6 witness run: a resize re-running `updateScrollMax`. -/
def sAfterResize : ListState := (runOps stateC6 [Op.resize 40 10]).getD stateC6

/-- A single stored item with id 42 (for C7). -/
def itC7 : Item :=
  { element := { id := 42, thumbnail := 7, name := "n", count := 1, unreadCount := 0, skipSmall := false }, subscribed := false, nameCache := none }

/-- A compact (State::Small) widget holding one item (for C7). -/
def stateC7 : ListState := { baseState with items := [itC7], empty := false }

/-- Ten stored items with ids 1..10. -/
def items10 : List Item :=
  (List.range 10).map (fun n => { element := mkElem n, subscribed := false, nameCache := none })

/-- `styleC6` with the trailing clamp region always clickable (for C8). -/
def styleC8 : ListStyle := { styleC6 with fullClickable := true }

/-- An expanded, scrolled widget whose visible full window starts at index 1
(for C8): width 25, scroll 12, item pitch 10. -/
def stateC8 : ListState := { baseState with
  st := styleC8, items := items10, empty := false, width := 25,
  scrollLeft := 12, scrollLeftMax := 75, lastRatio := 1, expanded := true,
  lastExpandedHeight := 10, state := State.Full, lastMousePosition := (40, 0) }

/-- `stateC6` already expanded with scrollable content (for C10). -/
def tC10 : ListState := { stateC6 with expanded := true, scrollLeftMax := 70 }

unseal Rat.mul Rat.inv Rat.add Rat.sub

theorem clampI_nonneg (v m : ℤ) : 0 ≤ clampI v 0 m := le_max_left 0 _

theorem clampI_le_right (v m : ℤ) (hm : 0 ≤ m) : clampI v 0 m ≤ m :=
  max_le hm (min_le_right v m)

/-- `requestExpanded` never touches the scroll model. -/
theorem requestExpanded_scrollFields (s : ListState) (b : Bool) :
    (requestExpanded s b).1.scrollLeft = s.scrollLeft
    ∧ (requestExpanded s b).1.scrollLeftMax = s.scrollLeftMax
    ∧ (requestExpanded s b).1.items = s.items
    ∧ (requestExpanded s b).1.width = s.width
    ∧ (requestExpanded s b).1.st = s.st := by
  unfold requestExpanded
  dsimp only
  split <;> exact ⟨rfl, rfl, rfl, rfl, rfl⟩

/-- `updateExpanding` never touches the scroll model. -/
theorem updateExpanding_scrollFields (s : ListState) (h H : ℤ) (t : ListState)
    (evs : List Event) (heq : updateExpanding s h H = some (t, evs)) :
    t.scrollLeft = s.scrollLeft ∧ t.scrollLeftMax = s.scrollLeftMax
    ∧ t.items = s.items ∧ t.width = s.width ∧ t.st = s.st := by
  unfold updateExpanding at heq
  split at heq
  · exact absurd heq (by simp)
  · dsimp only at heq
    split at heq
    · cases congrArg Prod.fst (Option.some.inj heq)
      exact ⟨rfl, rfl, rfl, rfl, rfl⟩
    · split at heq <;> split at heq <;>
        first
          | (cases congrArg Prod.fst (Option.some.inj heq)
             exact ⟨rfl, rfl, rfl, rfl, rfl⟩)
          | (have ht : (requestExpanded _ _).1 = t := congrArg Prod.fst (Option.some.inj heq)
             rw [← ht]
             exact requestExpanded_scrollFields _ _)

/-- `updateSelected` never touches the scroll model. -/
theorem updateSelected_scrollFields (s : ListState) (cu ea : ℚ) (t : ListState)
    (evs : List Event) (heq : updateSelected s cu ea = some (t, evs)) :
    t.scrollLeft = s.scrollLeft ∧ t.scrollLeftMax = s.scrollLeftMax
    ∧ t.items = s.items ∧ t.width = s.width ∧ t.st = s.st := by
  unfold updateSelected computeLayoutUpdating at heq
  split at heq
  · cases congrArg Prod.fst (Option.some.inj heq)
    exact ⟨rfl, rfl, rfl, rfl, rfl⟩
  · cases hupd : updateExpanding s (truncQ ((s.lastExpandedHeight : ℚ) * cu)) s.st.full.height with
    | none =>
      rw [hupd] at heq
      exact absurd heq (by simp)
    | some r =>
      obtain ⟨s1, evs1⟩ := r
      rw [hupd] at heq
      dsimp only at heq
      have hf := updateExpanding_scrollFields _ _ _ _ _ hupd
      simp only [Option.some.injEq, Prod.mk.injEq] at heq
      obtain ⟨ht, -⟩ := heq
      subst ht
      exact hf

theorem checkDragging_scroll (s : ListState)
    (h0 : 0 ≤ s.scrollLeft) (h1 : s.scrollLeft ≤ s.scrollLeftMax) :
    0 ≤ (checkDragging s).1.scrollLeft
    ∧ (checkDragging s).1.scrollLeft ≤ (checkDragging s).1.scrollLeftMax
    ∧ (checkDragging s).1.scrollLeftMax = s.scrollLeftMax
    ∧ (checkDragging s).1.items = s.items
    ∧ (checkDragging s).1.width = s.width
    ∧ (checkDragging s).1.st = s.st := by
  unfold checkDragging
  dsimp only
  repeat' split
  all_goals
    first
      | exact ⟨clampI_nonneg _ _, clampI_le_right _ _ (le_trans h0 h1), rfl, rfl, rfl, rfl⟩
      | exact ⟨h0, h1, rfl, rfl, rfl, rfl⟩

theorem updateScrollMax_scroll (t : ListState) :
    (updateScrollMax t).1.scrollLeftMax = max (fullWidth t - t.width) 0
    ∧ 0 ≤ (updateScrollMax t).1.scrollLeft
    ∧ (updateScrollMax t).1.scrollLeft ≤ (updateScrollMax t).1.scrollLeftMax
    ∧ (updateScrollMax t).1.items = t.items
    ∧ (updateScrollMax t).1.width = t.width
    ∧ (updateScrollMax t).1.st = t.st := by
  unfold updateScrollMax fullWidth
  dsimp only
  exact ⟨rfl, clampI_nonneg _ _, clampI_le_right _ _ (le_max_right _ 0), rfl, rfl, rfl⟩

theorem fullWidth_congr (a b : ListState) (hi : a.items = b.items) (hs : a.st = b.st) :
    fullWidth a = fullWidth b := by
  unfold fullWidth
  rw [hi, hs]

theorem updateScrollMax_max_eq (S t : ListState)
    (h1 : t.scrollLeftMax = (updateScrollMax S).1.scrollLeftMax)
    (h2 : t.items = (updateScrollMax S).1.items)
    (h3 : t.width = (updateScrollMax S).1.width)
    (h4 : t.st = (updateScrollMax S).1.st) :
    t.scrollLeftMax = max (fullWidth t - t.width) 0 := by
  have hu := updateScrollMax_scroll S
  have hfw : fullWidth t = fullWidth S :=
    (fullWidth_congr t (updateScrollMax S).1 h2 h4).trans
      (fullWidth_congr _ S hu.2.2.2.1 hu.2.2.2.2.2)
  rw [h1, hu.1, hfw, h3, hu.2.2.2.2.1]

theorem showContent_scroll (t : ListState) (c : Content) :
    (0 ≤ t.scrollLeft → t.scrollLeft ≤ t.scrollLeftMax →
      0 ≤ (showContent t c).1.scrollLeft
      ∧ (showContent t c).1.scrollLeft ≤ (showContent t c).1.scrollLeftMax)
    ∧ (c.elements ≠ [] → t.content ≠ c →
      (showContent t c).1.scrollLeftMax
        = max (fullWidth (showContent t c).1 - (showContent t c).1.width) 0) := by
  constructor
  · intro h0 h1
    unfold showContent
    dsimp only
    split
    · exact ⟨h0, h1⟩
    · split
      · exact ⟨h0, h1⟩
      · split <;>
          exact ⟨(updateScrollMax_scroll _).2.1, (updateScrollMax_scroll _).2.2.1⟩
  · intro hne hcc
    unfold showContent
    rw [if_neg hcc, if_neg hne]
    dsimp only
    split <;> exact updateScrollMax_max_eq _ _ rfl rfl rfl rfl

/-- Claim C3: starting compact with last observed ratio 0, the sample
sequence 0, 0.5, 0.73 produces exactly one expand request, at the 0.73
sample, and the subsequent samples 0.70, 0.67 produce exactly one collapse
request, at 0.67 and not at 0.70.  Ratios are fed to `updateExpanding` as
`(expandingHeight, expandedHeight)` pairs over a capacity of 100. -/
theorem updateExpanding_hysteresis_trace :
    (runUpdates baseState [(0, 100), (50, 100), (73, 100), (70, 100), (67, 100)]).map Prod.snd
      = some [[], [], [Event.toggleExpanded true], [], [Event.toggleExpanded false]] := by
  decide

/-- Claim C9: `updateExpanding` asserts `!expandingHeight || expandedHeight > 0`;
under that contract it is never rejected, the ratio is 0 without any division
when the expanding height is 0, and otherwise the divisor is positive and the
division exact; a contract violation is rejected (`none`) instead of
producing an ill-defined ratio. -/
theorem updateExpanding_contract_safe (h H : ℤ) (hc : h ≠ 0 → 0 < H) :
    (∀ s : ListState, (updateExpanding s h H).isSome = true)
    ∧ (h = 0 → expandingRatio h H = 0)
    ∧ (h ≠ 0 → 0 < H ∧ expandingRatio h H * (H : ℚ) = (h : ℚ))
    ∧ (∀ (s : ListState) (h' H' : ℤ), h' ≠ 0 → ¬ 0 < H' → updateExpanding s h' H' = none) := by
  refine ⟨?_, ?_, ?_, ?_⟩
  · intro s
    unfold updateExpanding
    rw [if_neg (by push_neg; intro hne; exact hc hne)]
    dsimp only
    split
    · rfl
    · split <;> (split <;> rfl)
  · intro h0
    simp [expandingRatio, h0]
  · intro hne
    refine ⟨hc hne, ?_⟩
    have hH : ((H : ℚ)) ≠ 0 := Int.cast_ne_zero.mpr (ne_of_gt (hc hne))
    simp [expandingRatio, hne, div_mul_cancel₀ _ hH]
  · intro s h' H' h1 h2
    simp [updateExpanding, h1, h2]

/-- Witness for C9 at `h = 5`, `H = 10`. -/
theorem updateExpanding_contract_safe_holds :
    (updateExpanding baseState 5 10).isSome = true
    ∧ expandingRatio 5 10 * ((10 : ℤ) : ℚ) = ((5 : ℤ) : ℚ) := by
  have h := updateExpanding_contract_safe 5 10 (by intro _; norm_num)
  exact ⟨h.1 baseState, (h.2.2.1 (by norm_num)).2⟩

/-- Claim C1: for a fixed state, every interpolated field of
`computeLayout r` is the linear interpolation by `r` between the same field
of `computeLayout 0` and of `computeLayout 1`, and the blended ratio is
`lastRatio * r + lastRatio * kFrictionRatio * (1 - r)`. -/
theorem computeLayout_linear_in_blend (s : ListState) (r : ℚ) (h0 : 0 ≤ r) (h1 : r ≤ 1) :
    (computeLayout s r).thumbnailLeft
      = (computeLayout s 0).thumbnailLeft
        + ((computeLayout s 1).thumbnailLeft - (computeLayout s 0).thumbnailLeft) * r
    ∧ (computeLayout s r).photoLeft
      = (computeLayout s 0).photoLeft
        + ((computeLayout s 1).photoLeft - (computeLayout s 0).photoLeft) * r
    ∧ (computeLayout s r).left
      = (computeLayout s 0).left
        + ((computeLayout s 1).left - (computeLayout s 0).left) * r
    ∧ (computeLayout s r).single
      = (computeLayout s 0).single
        + ((computeLayout s 1).single - (computeLayout s 0).single) * r
    ∧ (computeLayout s r).geometryShift.1
      = (computeLayout s 0).geometryShift.1
        + ((computeLayout s 1).geometryShift.1 - (computeLayout s 0).geometryShift.1) * r
    ∧ (computeLayout s r).geometryShift.2
      = (computeLayout s 0).geometryShift.2
        + ((computeLayout s 1).geometryShift.2 - (computeLayout s 0).geometryShift.2) * r
    ∧ (computeLayout s r).ratio = s.lastRatio * r + s.lastRatio * kFrictionRatio * (1 - r) := by
  unfold computeLayout
  dsimp only
  by_cases hs : s.state = State.Changing
  · simp only [if_pos hs]
    exact ⟨by ring, by ring, by ring, by ring, by ring, by ring, by ring_nf⟩
  · simp only [if_neg hs]
    exact ⟨by ring, by ring, by ring, by ring, by ring, by ring, by ring_nf⟩

/-- Counterexample for C2: with a stored last observed ratio of 1, the
blended ratio at blend 0 is the friction value 0.15, so `computeLayout 0`
does not produce the pure compact field values. -/
theorem computeLayout_friction_cex :
    ((computeLayout stateC2 0).thumbnailLeft, (computeLayout stateC2 0).photoLeft,
     (computeLayout stateC2 0).left, (computeLayout stateC2 0).single)
      ≠ pureCompactFields stateC2 := by
  decide

/-- Claim C2 (amended): `computeLayout 0` matches the pure compact layout
when the stored last observed ratio is 0, and `computeLayout 1` matches the
pure full layout when the stored last observed ratio is 1 (not for every
stored ratio: the blended ratio is `lastRatio * blend + lastRatio * 0.15 *
(1 - blend)`, which is 0 resp. 1 only at those stored values). -/
theorem computeLayout_endpoints_amended (s : ListState) :
    (s.lastRatio = 0 →
      ((computeLayout s 0).thumbnailLeft, (computeLayout s 0).photoLeft,
       (computeLayout s 0).left, (computeLayout s 0).single) = pureCompactFields s)
    ∧ (s.lastRatio = 1 →
      ((computeLayout s 1).thumbnailLeft, (computeLayout s 1).photoLeft,
       (computeLayout s 1).left, (computeLayout s 1).single) = pureFullFields s) := by
  constructor
  · intro h
    unfold pureCompactFields computeLayout
    dsimp only
    rw [h]
    simp only [zero_mul, mul_zero, zero_add, add_zero, mul_one, sub_zero, Prod.mk.injEq]
    refine ⟨?_, ?_, ?_, ?_⟩ <;> push_cast <;> ring
  · intro h
    unfold pureFullFields computeLayout
    dsimp only
    rw [h]
    simp only [one_mul, mul_one, sub_self, mul_zero, add_zero, Prod.mk.injEq]
    refine ⟨?_, ?_, ?_, ?_⟩ <;> push_cast <;> ring

/-- Witness for the amended C2 at states with stored ratio 0 resp. 1. -/
theorem computeLayout_endpoints_holds :
    ((computeLayout baseState 0).thumbnailLeft, (computeLayout baseState 0).photoLeft,
     (computeLayout baseState 0).left, (computeLayout baseState 0).single)
      = pureCompactFields baseState
    ∧ ((computeLayout stateC2 1).thumbnailLeft, (computeLayout stateC2 1).photoLeft,
       (computeLayout stateC2 1).left, (computeLayout stateC2 1).single)
      = pureFullFields stateC2 :=
  ⟨(computeLayout_endpoints_amended baseState).1 rfl,
   (computeLayout_endpoints_amended stateC2).2 rfl⟩

/-- Claim C4 (code bug): applying the one-element snapshot `S`, then the
empty snapshot, then `S` again leaves the store EMPTY, because the
empty-snapshot branch clears `_data` but not `_content`, so the repeated `S`
is treated as an unchanged snapshot and ignored.  The claim (after every
`applySnapshot`, the item order equals the most recent snapshot's order, so
the final store should hold `S`'s items) fails on the third call. -/
theorem showContent_stale_content_bug :
    ((showContent baseState snapC4).1.items.map (fun i => i.element.id) = [1]
        ∧ (showContent baseState snapC4).1.content = snapC4)
    ∧ ((showContent (showContent baseState snapC4).1 emptyContent).1.items = []
        ∧ (showContent (showContent baseState snapC4).1 emptyContent).1.empty = true
        ∧ (showContent (showContent baseState snapC4).1 emptyContent).1.content = snapC4)
    ∧ (showContent (showContent (showContent baseState snapC4).1 emptyContent).1 snapC4).1.items
        = [] := by
  decide

/-- Claim C7 (code bug): a press in the compact state requests expansion but
then still records the press (`mousePressEvent` does not return after
`requestExpanded(true)`), so the release of a no-movement tap finds
`_expanded` already true and fires a click as well.  The compact tap thus
emits BOTH a toggle-expanded request (at press) and a click with the pressed
item's id (at release), where the claim says the click must not be emitted. -/
theorem mousePress_compact_click_bug :
    ((mousePressEvent stateC7 (20, 5) 1 0).map (fun p => p.2)
        = some [Event.toggleExpanded true])
    ∧ (((mousePressEvent stateC7 (20, 5) 1 0).bind
          (fun p => mouseReleaseEvent p.1 (20, 5) 1 0)).map (fun p => p.2)
        = some [Event.click 42]) := by
  decide

/-- Counterexample for C8: in `stateC8` the full window is `[1, 4)` (start
index 1), the pointer at x = 40 yields candidate slot 4 (past the last
visible slot), and with `fullClickable` the resolved selection is 4 — not
the absolute index of the last visible item, which is `endIndexFull - 1 = 3`
(the relative clamp `endIndex - 1` is shifted again by the window start). -/
theorem hit_fullClickable_cex :
    ((updateSelected stateC8 1 1).map (fun p => p.1.selected) = some 4)
    ∧ (computeLayout stateC8 1).startIndexFull = 1
    ∧ (computeLayout stateC8 1).endIndexFull = 4
    ∧ hitCandidate 8 8 10 40 = 4
    ∧ stateC8.st.fullClickable = true := by
  decide

/-- Claim C8 (amended): when the candidate slot exceeds the last visible
slot (and the last-small-part clamp does not apply), hit-testing resolves to
-1 without `fullClickable`; with `fullClickable` the relative index is set
to `endIndex - 1`, so the absolute selection is `startIndex + endIndex - 1`
(clamped to -1 when it reaches the item count) — equal to the absolute index
of the last visible item only when the visible window starts at 0. -/
theorem hit_overflow_amended (fc : Bool) (startIndex endIndex itemsCount : ℤ)
    (firstRight secondLeft lastRightAdd single x : ℚ)
    (hs0 : 0 ≤ startIndex)
    (hwin : startIndex < endIndex)
    (hcand : endIndex - startIndex ≤ hitCandidate secondLeft firstRight single x)
    (hnc : ¬(hitCandidate secondLeft firstRight single x = endIndex - startIndex
        ∧ x < firstRight + ((endIndex - startIndex - 1 : ℤ) : ℚ) * single + lastRightAdd)) :
    hitIndex fc startIndex endIndex firstRight secondLeft lastRightAdd single x
      = (if fc then endIndex - 1 else -1)
    ∧ hitSelected itemsCount startIndex
        (hitIndex fc startIndex endIndex firstRight secondLeft lastRightAdd single x)
      = (if fc
          then (if startIndex + (endIndex - 1) ≥ itemsCount then -1
            else startIndex + endIndex - 1)
          else -1) := by
  unfold hitIndex hitSelected
  rw [if_neg (by omega : ¬ endIndex = startIndex), if_neg hnc, if_pos (by omega)]
  cases fc
  · refine ⟨by norm_num, by norm_num⟩
  · refine ⟨by norm_num, ?_⟩
    norm_num
    split_ifs <;> omega

/-- Witness for the amended C8 at the window `[1, 4)` of 10 items. -/
theorem hit_overflow_holds :
    hitIndex true 1 4 8 8 0 10 40 = 3
    ∧ hitSelected 10 1 (hitIndex true 1 4 8 8 0 10 40) = 4 := by
  have h := hit_overflow_amended true 1 4 10 8 8 0 10 40
    (by norm_num) (by norm_num) (by decide) (by decide)
  exact ⟨by simpa using h.1, by simpa using h.2⟩

/-- Witness for C1 at the sample state and `r = 1/2`. -/
theorem computeLayout_linear_in_blend_holds :
    (0 : ℚ) ≤ 1 / 2 ∧ (1 / 2 : ℚ) ≤ 1
    ∧ (computeLayout baseState (1 / 2)).ratio
      = baseState.lastRatio * (1 / 2) + baseState.lastRatio * kFrictionRatio * (1 - 1 / 2) :=
  ⟨by norm_num, by norm_num,
    (computeLayout_linear_in_blend baseState (1 / 2) (by norm_num) (by norm_num)).2.2.2.2.2.2⟩

theorem maybeStartDrag_scrollFields (s1 : ListState) (pos : ℤ × ℤ) (dd : ℤ) :
    (maybeStartDrag s1 pos dd).scrollLeft = s1.scrollLeft
    ∧ (maybeStartDrag s1 pos dd).scrollLeftMax = s1.scrollLeftMax := by
  unfold maybeStartDrag
  repeat' split
  all_goals exact ⟨rfl, rfl⟩

theorem mouseMoveEvent_scroll (s : ListState) (pos : ℤ × ℤ) (dd : ℤ) (cu ea : ℚ)
    (t : ListState) (evs : List Event)
    (h0 : 0 ≤ s.scrollLeft) (h1 : s.scrollLeft ≤ s.scrollLeftMax)
    (heq : mouseMoveEvent s pos dd cu ea = some (t, evs)) :
    0 ≤ t.scrollLeft ∧ t.scrollLeft ≤ t.scrollLeftMax := by
  unfold mouseMoveEvent at heq
  dsimp only at heq
  split at heq
  · exact absurd heq (by simp)
  · rename_i s1 evs1 hups
    cases congrArg Prod.fst (Option.some.inj heq)
    have hf := updateSelected_scrollFields _ cu ea _ _ hups
    have hm := maybeStartDrag_scrollFields s1 pos dd
    have hcd := checkDragging_scroll (maybeStartDrag s1 pos dd)
      (by rw [hm.1, hf.1]; exact h0) (by rw [hm.1, hf.1, hm.2, hf.2.1]; exact h1)
    exact ⟨hcd.1, hcd.2.1⟩

theorem mousePressEvent_scroll (s : ListState) (pos : ℤ × ℤ) (cu ea : ℚ)
    (t : ListState) (evs : List Event)
    (h0 : 0 ≤ s.scrollLeft) (h1 : s.scrollLeft ≤ s.scrollLeftMax)
    (heq : mousePressEvent s pos cu ea = some (t, evs)) :
    0 ≤ t.scrollLeft ∧ t.scrollLeft ≤ t.scrollLeftMax := by
  unfold mousePressEvent at heq
  split at heq
  · cases congrArg Prod.fst (Option.some.inj heq)
    exact ⟨h0, h1⟩
  · dsimp only at heq
    split at heq
    · exact absurd heq (by simp)
    · rename_i s3 evs2 hups
      cases congrArg Prod.fst (Option.some.inj heq)
      have hf := updateSelected_scrollFields _ cu ea _ _ hups
      have ha : ({ (if s.state = State.Small then requestExpanded s true else (s, [])).1 with
          lastMousePosition := pos } : ListState).scrollLeft = s.scrollLeft := by
        split
        · exact (requestExpanded_scrollFields s true).1
        · rfl
      have hb : ({ (if s.state = State.Small then requestExpanded s true else (s, [])).1 with
          lastMousePosition := pos } : ListState).scrollLeftMax = s.scrollLeftMax := by
        split
        · exact (requestExpanded_scrollFields s true).2.1
        · rfl
      constructor
      · show 0 ≤ s3.scrollLeft
        rw [hf.1, ha]
        exact h0
      · show s3.scrollLeft ≤ s3.scrollLeftMax
        rw [hf.1, hf.2.1, ha, hb]
        exact h1

theorem finishDragging_scroll (s : ListState) (cu ea : ℚ)
    (fin : Bool) (t : ListState) (evs : List Event)
    (h0 : 0 ≤ s.scrollLeft) (h1 : s.scrollLeft ≤ s.scrollLeftMax)
    (heq : finishDragging s cu ea = some (fin, t, evs)) :
    0 ≤ t.scrollLeft ∧ t.scrollLeft ≤ t.scrollLeftMax := by
  unfold finishDragging at heq
  split at heq
  · cases congrArg (fun p => p.2.1) (Option.some.inj heq)
    exact ⟨h0, h1⟩
  · dsimp only at heq
    split at heq
    · exact absurd heq (by simp)
    · rename_i s3 evs2 hups
      cases congrArg (fun p => p.2.1) (Option.some.inj heq)
      have hcd := checkDragging_scroll s h0 h1
      have hf := updateSelected_scrollFields _ cu ea _ _ hups
      constructor
      · rw [hf.1]
        exact hcd.1
      · rw [hf.1, hf.2.1]
        exact hcd.2.1

theorem mouseReleaseEvent_scroll (s : ListState) (pos : ℤ × ℤ) (cu ea : ℚ)
    (t : ListState) (evs : List Event)
    (h0 : 0 ≤ s.scrollLeft) (h1 : s.scrollLeft ≤ s.scrollLeftMax)
    (heq : mouseReleaseEvent s pos cu ea = some (t, evs)) :
    0 ≤ t.scrollLeft ∧ t.scrollLeft ≤ t.scrollLeftMax := by
  unfold mouseReleaseEvent at heq
  dsimp only at heq
  split at heq
  · exact absurd heq (by simp)
  · rename_i fin s1 evs1 hfin
    have hb := finishDragging_scroll { s with pressed := -1, lastMousePosition := pos }
      cu ea _ _ _ h0 h1 hfin
    split at heq
    · cases congrArg Prod.fst (Option.some.inj heq)
      exact hb
    · split at heq
      · exact absurd heq (by simp)
      · rename_i s2 evs2 hups
        have hf := updateSelected_scrollFields _ cu ea _ _ hups
        have hs2 : 0 ≤ s2.scrollLeft ∧ s2.scrollLeft ≤ s2.scrollLeftMax := by
          rw [hf.1, hf.2.1]
          exact hb
        split at heq
        · split at heq
          · cases congrArg Prod.fst (Option.some.inj heq)
            have hr := requestExpanded_scrollFields s2 true
            constructor
            · show 0 ≤ (requestExpanded s2 true).1.scrollLeft
              rw [hr.1]
              exact hs2.1
            · show (requestExpanded s2 true).1.scrollLeft
                  ≤ (requestExpanded s2 true).1.scrollLeftMax
              rw [hr.1, hr.2.1]
              exact hs2.2
          · split at heq
            · cases congrArg Prod.fst (Option.some.inj heq)
              exact hs2
            · cases congrArg Prod.fst (Option.some.inj heq)
              exact hs2
        · cases congrArg Prod.fst (Option.some.inj heq)
          exact hs2

/-- Counterexample for C6: ten items, a wheel scroll to offset 50, then the
empty snapshot.  The empty-snapshot branch clears the items without running
`updateScrollMax`, so the stored offset 50 ends up outside
`[0, max(0, fullRowContentWidth - viewportWidth)] = [0, 0]`. -/
theorem scroll_invariant_cex :
    (runOps stateC6 opsC6).map
        (fun t => (t.scrollLeft, max (fullWidth t - t.width) 0,
          decide (0 ≤ t.scrollLeft ∧ t.scrollLeft ≤ max (fullWidth t - t.width) 0)))
      = some (50, 0, false) := by
  decide

theorem wheelEvent_scroll (s : ListState) (ax px : ℤ) (cu ea : ℚ) (t : ListState)
    (evs : List Event)
    (h0 : 0 ≤ s.scrollLeft) (h1 : s.scrollLeft ≤ s.scrollLeftMax)
    (heq : wheelEvent s ax px cu ea = some (t, evs)) :
    0 ≤ t.scrollLeft ∧ t.scrollLeft ≤ t.scrollLeftMax := by
  unfold wheelEvent at heq
  split at heq
  · cases congrArg Prod.fst (Option.some.inj heq)
    exact ⟨h0, h1⟩
  · dsimp only at heq
    split at heq
    · split at heq
      · exact absurd heq (by simp)
      · rename_i s3 evs2 hups
        cases congrArg Prod.fst (Option.some.inj heq)
        have hf := updateSelected_scrollFields _ cu ea _ _ hups
        have h2 : ({ (requestExpanded s true).1 with
            scrollLeft := clampI (s.scrollLeft - wheelDelta s ax px) 0 s.scrollLeftMax
          } : ListState).scrollLeftMax = s.scrollLeftMax :=
          (requestExpanded_scrollFields s true).2.1
        constructor
        · rw [hf.1]
          exact clampI_nonneg _ _
        · rw [hf.1, hf.2.1, h2]
          exact clampI_le_right _ _ (le_trans h0 h1)
    · cases congrArg Prod.fst (Option.some.inj heq)
      exact ⟨h0, h1⟩

theorem step_scroll (s : ListState) (op : Op) (t : ListState) (evs : List Event)
    (h0 : 0 ≤ s.scrollLeft) (h1 : s.scrollLeft ≤ s.scrollLeftMax)
    (heq : step s op = some (t, evs)) :
    0 ≤ t.scrollLeft ∧ t.scrollLeft ≤ t.scrollLeftMax := by
  cases op with
  | wheel ax px cu ea => exact wheelEvent_scroll s ax px cu ea t evs h0 h1 heq
  | press pos cu ea => exact mousePressEvent_scroll s pos cu ea t evs h0 h1 heq
  | move pos dd cu ea => exact mouseMoveEvent_scroll s pos dd cu ea t evs h0 h1 heq
  | release pos cu ea => exact mouseReleaseEvent_scroll s pos cu ea t evs h0 h1 heq
  | resize w h =>
    cases congrArg Prod.fst (Option.some.inj heq)
    exact ⟨(updateScrollMax_scroll _).2.1, (updateScrollMax_scroll _).2.2.1⟩
  | content c =>
    cases congrArg Prod.fst (Option.some.inj heq)
    exact (showContent_scroll s c).1 h0 h1

theorem runOps_scroll (ops : List Op) : ∀ s t : ListState,
    0 ≤ s.scrollLeft → s.scrollLeft ≤ s.scrollLeftMax →
    runOps s ops = some t → 0 ≤ t.scrollLeft ∧ t.scrollLeft ≤ t.scrollLeftMax := by
  induction ops with
  | nil =>
    intro s t h0 h1 heq
    cases Option.some.inj heq
    exact ⟨h0, h1⟩
  | cons op rest ih =>
    intro s t h0 h1 heq
    unfold runOps at heq
    cases hstep : step s op with
    | none =>
      rw [hstep] at heq
      exact absurd heq (by simp)
    | some r =>
      obtain ⟨s1, evs⟩ := r
      rw [hstep] at heq
      dsimp only at heq
      have hb := step_scroll s op s1 evs h0 h1 hstep
      exact ih s1 t hb.1 hb.2 heq

/-- Claim C6 (amended): after any sequence of wheel, drag, press/release,
resize and snapshot events the offset stays within `[0, storedMax]`, and the
stored maximum equals `max(0, fullWidth - viewportWidth)` after every resize
and every applied (non-empty, changed) snapshot; the empty-snapshot clear
resets the items without recomputing the maximum, so the claimed bound
`[0, max(0, fullRowContentWidth - viewportWidth)]` can be violated until the
next resize or non-empty snapshot. -/
theorem scroll_bounds_amended (s : ListState) (ops : List Op) (t : ListState)
    (h0 : 0 ≤ s.scrollLeft) (h1 : s.scrollLeft ≤ s.scrollLeftMax)
    (hrun : runOps s ops = some t) :
    (0 ≤ t.scrollLeft ∧ t.scrollLeft ≤ t.scrollLeftMax)
    ∧ (∀ u : ListState,
        (updateScrollMax u).1.scrollLeftMax = max (fullWidth u - u.width) 0)
    ∧ (∀ (u : ListState) (w h : ℤ),
        (resizeEvent u w h).1.scrollLeftMax
          = max (fullWidth (resizeEvent u w h).1 - (resizeEvent u w h).1.width) 0)
    ∧ (∀ (u : ListState) (c : Content), c.elements ≠ [] → u.content ≠ c →
        (showContent u c).1.scrollLeftMax
          = max (fullWidth (showContent u c).1 - (showContent u c).1.width) 0) := by
  refine ⟨runOps_scroll ops s t h0 h1 hrun, fun u => (updateScrollMax_scroll u).1, ?_,
    fun u c hc hcc => (showContent_scroll u c).2 hc hcc⟩
  intro u w h
  exact updateScrollMax_max_eq _ _ rfl rfl rfl rfl

/-- Witness for the amended C6: a resize of `stateC6`. -/
theorem scroll_bounds_holds :
    0 ≤ sAfterResize.scrollLeft ∧ sAfterResize.scrollLeft ≤ sAfterResize.scrollLeftMax := by
  have h := scroll_bounds_amended stateC6 [Op.resize 40 10] sAfterResize
    (by decide) (by decide) (by decide)
  exact h.1


theorem updateGeometry_items (s : ListState) : (updateGeometry s).items = s.items := by
  unfold updateGeometry setGeometry
  split <;> rfl

theorem reconcileItem_spec (i : Item) (e : Element) :
    (reconcileItem i e).subscribed
      = (if i.element.thumbnail = e.thumbnail then i.subscribed else false)
    ∧ (reconcileItem i e).nameCache
      = (if i.element.name = e.name then i.nameCache else none)
    ∧ (reconcileItem i e).element.id = i.element.id := by
  unfold reconcileItem
  dsimp only
  split <;> split <;> simp_all

theorem find_reconcile_targets (s : ListState) (a b c : Item) (ea ec : Element)
    (hitems : s.items = [a, b, c])
    (hidA : ea.id = a.element.id)
    (hidC : ec.id = c.element.id)
    (hCA : ec.id ≠ a.element.id) (hCB : ec.id ≠ b.element.id) :
    s.items.find? (fun item => item.element.id == ea.id) = some a
    ∧ s.items.find? (fun item => item.element.id == ec.id) = some c := by
  rw [hitems]
  constructor
  · have h0 : (a.element.id == ea.id) = true := beq_iff_eq.mpr hidA.symm
    simp [List.find?, h0]
  · have h1 : (a.element.id == ec.id) = false := beq_eq_false_iff_ne.mpr (Ne.symm hCA)
    have h2 : (b.element.id == ec.id) = false := beq_eq_false_iff_ne.mpr (Ne.symm hCB)
    have h3 : (c.element.id == ec.id) = true := beq_iff_eq.mpr hidC.symm
    simp [List.find?, h1, h2, h3]

theorem updateScrollMax_items (t : ListState) : (updateScrollMax t).1.items = t.items :=
  (updateScrollMax_scroll t).2.2.2.1

/-- Claim C5: reconciliation preserves per-item cached state.  For a store
holding `[A, B, C]`, a snapshot `[A, C]` with unchanged ids, thumbnails and
names keeps A's and C's `subscribed` flags and name-image caches and drops B;
and in general the merge resets `subscribed` exactly when the thumbnail
handle changed and the name cache exactly when the name changed. -/
theorem showContent_preserves_caches (s : ListState) (a b c : Item) (ea ec : Element)
    (hitems : s.items = [a, b, c])
    (hne : s.content ≠ Content.mk [ea, ec])
    (hidA : ea.id = a.element.id) (hthA : ea.thumbnail = a.element.thumbnail)
    (hnmA : ea.name = a.element.name)
    (hidC : ec.id = c.element.id) (hthC : ec.thumbnail = c.element.thumbnail)
    (hnmC : ec.name = c.element.name)
    (hCA : ec.id ≠ a.element.id) (hCB : ec.id ≠ b.element.id) :
    ((showContent s (Content.mk [ea, ec])).1.items.map
        (fun i => (i.element.id, i.subscribed, i.nameCache)))
      = [(a.element.id, a.subscribed, a.nameCache), (c.element.id, c.subscribed, c.nameCache)]
    ∧ (∀ (i : Item) (e : Element),
        (reconcileItem i e).subscribed
          = (if i.element.thumbnail = e.thumbnail then i.subscribed else false)
        ∧ (reconcileItem i e).nameCache
          = (if i.element.name = e.name then i.nameCache else none)) := by
  have hfind := find_reconcile_targets s a b c ea ec hitems hidA hidC hCA hCB
  have key : (showContent s (Content.mk [ea, ec])).1.items
      = [reconcileItem a ea, reconcileItem c ec] := by
    unfold showContent
    rw [if_neg hne, if_neg (by simp : ¬ (Content.mk [ea, ec]).elements = [])]
    dsimp only
    rw [List.map_cons, List.map_cons, List.map_nil, hfind.1, hfind.2]
    dsimp only
    rw [hitems]
    simp [updateGeometry_items, updateScrollMax_items]
  refine ⟨?_, fun i e => ⟨(reconcileItem_spec i e).1, (reconcileItem_spec i e).2.1⟩⟩
  rw [key]
  have ha := reconcileItem_spec a ea
  have hc := reconcileItem_spec c ec
  simp only [List.map_cons, List.map_nil]
  rw [ha.1, ha.2.1, ha.2.2, hc.1, hc.2.1, hc.2.2,
    if_pos hthA.symm, if_pos hnmA.symm, if_pos hthC.symm, if_pos hnmC.symm]


/-- Witness for C5 at the sample store (counts updated, caches kept). -/
theorem showContent_preserves_caches_holds :
    ((showContent stateC5
        (Content.mk [{ elemA with count := 5 }, { elemC with unreadCount := 2 }])).1.items.map
        (fun i => (i.element.id, i.subscribed, i.nameCache)))
      = [(1, true, some 11), (3, false, some 33)] := by
  have h := showContent_preserves_caches stateC5 itemA itemB itemC
    { elemA with count := 5 } { elemC with unreadCount := 2 }
    (by decide) (by decide) (by decide) (by decide) (by decide)
    (by decide) (by decide) (by decide) (by decide) (by decide)
  exact h.1.trans (by decide)

theorem requestExpanded_events (s : ListState) (b : Bool) :
    (requestExpanded s b).2 = [Event.toggleExpanded b]
    ∧ (requestExpanded s b).1.expanded = b := by
  unfold requestExpanded
  dsimp only
  split
  · exact ⟨rfl, rfl⟩
  · rename_i h
    rw [not_not.mp h]
    exact ⟨rfl, rfl⟩

theorem updateExpanding_isSome (s : ListState) (h H : ℤ) (hH : 0 < H) :
    ∃ r, updateExpanding s h H = some r := by
  unfold updateExpanding
  rw [if_neg (fun hc => hc.2 hH)]
  dsimp only
  repeat' split
  all_goals exact ⟨_, rfl⟩

theorem updateSelected_isSome (s : ListState) (cu ea : ℚ) (hh : 0 < s.st.full.height) :
    ∃ r, updateSelected s cu ea = some r := by
  unfold updateSelected computeLayoutUpdating
  split
  · exact ⟨_, rfl⟩
  · obtain ⟨r, hr⟩ := updateExpanding_isSome s
      (truncQ ((s.lastExpandedHeight : ℚ) * cu)) s.st.full.height hh
    rw [hr]
    obtain ⟨s1, evs1⟩ := r
    dsimp only
    exact ⟨_, rfl⟩

/-- Claim C10: every `requestExpanded(expanded)` call fires a
toggle-expanded event carrying the resulting flag, even when the flag does
not change; consequently a horizontal wheel scroll that changes the offset
while already expanded re-emits a toggle-expanded(true) event (it is the
first event of the handler's trace). -/
theorem requestExpanded_always_fires (s t : ListState) (b : Bool) (ax px : ℤ) (cu ea : ℚ)
    (hax : ax ≠ 0) (hst : t.state ≠ State.Small) (hexp : t.expanded = true)
    (hh : 0 < t.st.full.height)
    (hch : clampI (t.scrollLeft - wheelDelta t ax px) 0 t.scrollLeftMax ≠ t.scrollLeft) :
    (requestExpanded s b).2 = [Event.toggleExpanded b]
    ∧ (requestExpanded s b).1.expanded = b
    ∧ ∃ (t' : ListState) (evs : List Event),
        wheelEvent t ax px cu ea = some (t', evs)
        ∧ evs.head? = some (Event.toggleExpanded true) := by
  refine ⟨(requestExpanded_events s b).1, (requestExpanded_events s b).2, ?_⟩
  unfold wheelEvent
  rw [if_neg (by push_neg; exact ⟨hax, hst⟩)]
  dsimp only
  rw [if_pos hch]
  have hs2 : 0 < ({ (requestExpanded t true).1 with
      scrollLeft := clampI (t.scrollLeft - wheelDelta t ax px) 0 t.scrollLeftMax
    } : ListState).st.full.height := by
    have hstq : (requestExpanded t true).1.st = t.st :=
      (requestExpanded_scrollFields t true).2.2.2.2
    show 0 < (requestExpanded t true).1.st.full.height
    rw [hstq]
    exact hh
  obtain ⟨r, hr⟩ := updateSelected_isSome _ cu ea hs2
  obtain ⟨s3, evs2⟩ := r
  rw [hr]
  refine ⟨s3, _, rfl, ?_⟩
  rw [(requestExpanded_events t true).1]
  simp


/-- Witness for C10: an expanded widget with scrollable content and a wheel
delta of -50. -/
theorem requestExpanded_always_fires_holds :
    (requestExpanded tC10 true).2 = [Event.toggleExpanded true]
    ∧ ∃ (t' : ListState) (evs : List Event),
        wheelEvent tC10 (-50) 0 1 0 = some (t', evs)
        ∧ evs.head? = some (Event.toggleExpanded true) := by
  have h := requestExpanded_always_fires tC10 tC10 true (-50) 0 1 0
    (by decide) (by decide) (by decide) (by decide) (by decide)
  exact ⟨h.1, h.2.2⟩

end Stories
